import Mathlib

/-!
Shallow embedding of the CurrencySwap canister
(src/src/icp_rust_boilerplate_backend/src/lib.rs).

Modelling conventions:
- A `candid::Principal` is modelled as a `Nat`; the distinguished anonymous
  principal is `anonymous = 0`.  Distinct principals are distinct naturals.
- The two `StableBTreeMap`s and the `Cell` counter are modelled as one
  explicit `State` record threaded through the operations; a map is an
  association list with first-match lookup and replace-first insert,
  matching the key-value semantics of the stable maps.
- `u64` values are modelled as `Nat`.  The source's `+=` can only overflow
  past 2^64, where the canister call would trap and roll back; trapping
  executions are outside this model.
- The `f64` limit price is modelled as `Rat`; the oracle stub
  `is_price_condition_met` keeps the source's comparison against 1.2.
- `time()` is an explicit `now` argument to `create_swap_order`.
- A panic inside an update call traps the call, and the runtime rolls back
  every write the call made.  The id-allocation block of
  `create_swap_order` (lib.rs lines 222-228) calls `counter.borrow_mut()`
  while the shared `RefCell` guard `binding` obtained on line 223 is still
  alive, so every execution of that block panics with a `BorrowMutError`.
  The block runs exactly when validation and the escrow debit have
  succeeded, hence the success path of `create_swap_order` is unreachable:
  the model renders it as the `Outcome.trap` result with the entry state
  restored, and the order-building code at lines 230-244 is dead.
-/

namespace CurrencySwap

abbrev Principal := Nat

/-- Model of `candid::Principal::anonymous()`. -/
def anonymous : Principal := 0

/-- Model of `struct UserAccount { balance: u64 }` (lib.rs line 17). -/
structure UserAccount where
  balance : Nat
deriving DecidableEq, Repr

/-- Model of `enum SwapStatus` (lib.rs line 108). -/
inductive SwapStatus where
  | Created
  | Executed
  | Cancelled
deriving DecidableEq, Repr

/-- Model of `enum OrderType` (lib.rs line 67); the `f64` price is modelled as `Rat`. -/
inductive OrderType where
  | Market
  | Limit (price : Rat)
deriving DecidableEq, Repr

/-- Model of `struct SwapOrder` (lib.rs line 79). -/
structure SwapOrder where
  id : Nat
  owner : Principal
  from_currency : String
  to_currency : String
  from_amount : Nat
  to_amount : Nat
  order_type : OrderType
  created_at : Nat
  status : SwapStatus
deriving DecidableEq, Repr

/-- Model of `enum Error` (lib.rs line 380). -/
inductive Error where
  | InsufficientFunds
  | InvalidOrderId
  | InvalidOrderStatus
  | Unauthorized
  | UserNotFound
  | PriceConditionNotMet
  | InvalidAmount
  | InvalidCurrency
  | InvalidPrice
  | AnonymousNotAllowed
  | OwnerCannotExecute
deriving DecidableEq, Repr

/-- Rust's `Result<A, Error>`. -/
inductive Res (α : Type) where
  | ok (val : α)
  | err (e : Error)
deriving DecidableEq, Repr

/-- The observable outcome of an update call: either a normal `Result`
return, or a trap (panic), after which the runtime discards every write the
call made. -/
inductive Outcome (α : Type) where
  | ret (r : Res α)
  | trap
deriving DecidableEq, Repr

/-- First-match lookup in an association-list map (`StableBTreeMap::get`). -/
def mapLookup {K V : Type} [DecidableEq K] : List (K × V) → K → Option V
  | [], _ => none
  | (k0, v0) :: rest, k => if k0 = k then some v0 else mapLookup rest k

/-- Replace-first insert in an association-list map (`StableBTreeMap::insert`). -/
def mapInsert {K V : Type} [DecidableEq K] : List (K × V) → K → V → List (K × V)
  | [], k, v => [(k, v)]
  | (k0, v0) :: rest, k, v =>
    if k0 = k then (k, v) :: rest else (k0, v0) :: mapInsert rest k v

/-- The three persistent structures: `USER_ACCOUNTS`, `SWAP_ORDERS`,
`ORDER_COUNTER` (lib.rs lines 135-154). -/
structure State where
  accounts : List (Principal × UserAccount)
  orders : List (Nat × SwapOrder)
  counter : Nat
deriving DecidableEq, Repr

/-- The canister's initial state: empty maps, counter 0. -/
def State.empty : State := ⟨[], [], 0⟩

/-- Model of `is_valid_currency` (lib.rs line 375): the regex `[A-Z]{3}` anchored at
both ends, i.e. exactly three uppercase ASCII letters. -/
def is_valid_currency (currency : String) : Bool :=
  currency.length == 3 &&
    currency.toList.all (fun ch => decide (65 ≤ ch.toNat) && decide (ch.toNat ≤ 90))

/-- Model of `is_price_condition_met` (lib.rs line 366): the stub condition
`price <= 1.2`, with the price as a rational. -/
def is_price_condition_met (price : Rat) : Bool :=
  decide (price ≤ (6 : Rat) / 5)

/-- The `if let OrderType::Limit { price } = ... if *price <= 0.0` check in
`create_swap_order` (lib.rs lines 199-203). -/
def has_invalid_price : OrderType → Bool
  | .Market => false
  | .Limit price => decide (price ≤ 0)

/-- The `unwrap_or_else` pattern that fetches an account and inserts a
default (zero-balance) record when absent (lib.rs lines 208-211, 305-308,
338-341).  Note the insert happens even if the enclosing operation later
fails. -/
def ensure_account (accounts : List (Principal × UserAccount)) (p : Principal) :
    List (Principal × UserAccount) :=
  match mapLookup accounts p with
  | some _ => accounts
  | none => mapInsert accounts p ⟨0⟩

/-- Model of `struct DepositArgs` (lib.rs line 157). -/
structure DepositArgs where
  amount : Nat
  currency : String
deriving DecidableEq, Repr

/-- Model of `deposit` (lib.rs lines 162-180). -/
def deposit (caller : Principal) (args : DepositArgs) (s : State) :
    Res Unit × State :=
  if args.amount = 0 then (.err .InvalidAmount, s)
  else if is_valid_currency args.currency = false then (.err .InvalidCurrency, s)
  else
    let acct := (mapLookup s.accounts caller).getD ⟨0⟩
    (.ok (), { s with accounts := mapInsert s.accounts caller ⟨acct.balance + args.amount⟩ })

/-- Model of `struct CreateSwapOrderArgs` (lib.rs line 183). -/
structure CreateSwapOrderArgs where
  from_currency : String
  to_currency : String
  from_amount : Nat
  to_amount : Nat
  order_type : OrderType
deriving DecidableEq, Repr

/-- Model of `create_swap_order` (lib.rs lines 191-245); `now` stands for
`time()`.  After a successful debit the id-allocation block (lines 222-228)
reads the counter through the shared guard `binding` and then, with that
guard still alive, calls `counter.borrow_mut()`, which panics with a
`BorrowMutError` on every execution; the call traps and the runtime rolls
back its writes (the escrow debit and any account-record insert), so the
order construction and insert at lines 230-244 are unreachable and the
function never returns `Ok`.  The `InsufficientFunds` return at line 214
happens before that block and its writes persist. -/
def create_swap_order (caller : Principal) (_now : Nat)
    (args : CreateSwapOrderArgs) (s : State) : Outcome Nat × State :=
  if args.from_amount = 0 ∨ args.to_amount = 0 then (.ret (.err .InvalidAmount), s)
  else if is_valid_currency args.from_currency = false ∨
          is_valid_currency args.to_currency = false then (.ret (.err .InvalidCurrency), s)
  else if has_invalid_price args.order_type then (.ret (.err .InvalidPrice), s)
  else
    let accounts0 := ensure_account s.accounts caller
    let acct := (mapLookup accounts0 caller).getD ⟨0⟩
    if acct.balance < args.from_amount then
      (.ret (.err .InsufficientFunds), { s with accounts := accounts0 })
    else
      (.trap, s)

/-- Model of `transfer_funds` (lib.rs lines 294-320).  The recipient's account is
created (zero balance) before the sender's balance check, so an
`InsufficientFunds` failure can still have inserted that record. -/
def transfer_funds (fromP toP : Principal) (amount : Nat)
    (accounts : List (Principal × UserAccount)) :
    Res Unit × List (Principal × UserAccount) :=
  if amount = 0 then (.ok (), accounts)
  else if fromP = toP then (.ok (), accounts)
  else
    match mapLookup accounts fromP with
    | none => (.err .UserNotFound, accounts)
    | some fromAcct =>
      let accounts0 := ensure_account accounts toP
      let toAcct := (mapLookup accounts0 toP).getD ⟨0⟩
      if fromAcct.balance < amount then
        (.err .InsufficientFunds, accounts0)
      else
        (.ok (),
          mapInsert (mapInsert accounts0 fromP ⟨fromAcct.balance - amount⟩)
            toP ⟨toAcct.balance + amount⟩)

/-- Model of `execute_swap_order` (lib.rs lines 247-292). -/
def execute_swap_order (executor : Principal) (order_id : Nat) (s : State) :
    Res Unit × State :=
  if executor = anonymous then (.err .AnonymousNotAllowed, s)
  else
    match mapLookup s.orders order_id with
    | none => (.err .InvalidOrderId, s)
    | some order =>
      if order.status ≠ SwapStatus.Created then (.err .InvalidOrderStatus, s)
      else if order.owner = executor then (.err .OwnerCannotExecute, s)
      else
        let tr : Res Unit × List (Principal × UserAccount) :=
          match order.order_type with
          | .Market => transfer_funds executor order.owner order.to_amount s.accounts
          | .Limit price =>
            if is_price_condition_met price then
              transfer_funds executor order.owner order.to_amount s.accounts
            else (.err .PriceConditionNotMet, s.accounts)
        match tr with
        | (.err e, accounts1) => (.err e, { s with accounts := accounts1 })
        | (.ok _, accounts1) =>
          (.ok (),
            { s with
              accounts := accounts1
              orders := mapInsert s.orders order_id { order with status := .Executed } })

/-- Model of `cancel_swap_order` (lib.rs lines 322-351).  Status is checked before
ownership, so a second cancellation fails with `InvalidOrderStatus` whoever
calls it. -/
def cancel_swap_order (caller : Principal) (order_id : Nat) (s : State) :
    Res Unit × State :=
  match mapLookup s.orders order_id with
  | none => (.err .InvalidOrderId, s)
  | some order =>
    if order.status ≠ SwapStatus.Created then (.err .InvalidOrderStatus, s)
    else if order.owner ≠ caller then (.err .Unauthorized, s)
    else
      let accounts0 := ensure_account s.accounts caller
      let acct := (mapLookup accounts0 caller).getD ⟨0⟩
      let accounts1 := mapInsert accounts0 caller ⟨acct.balance + order.from_amount⟩
      (.ok (),
        { s with
          accounts := accounts1
          orders := mapInsert s.orders order_id { order with status := .Cancelled } })

/-- Model of `get_user_balance` (lib.rs lines 353-358). -/
def get_user_balance (caller : Principal) (s : State) : Option Nat :=
  (mapLookup s.accounts caller).map (fun a => a.balance)

/-- Model of `get_swap_order` (lib.rs lines 360-363). -/
def get_swap_order (order_id : Nat) (s : State) : Option SwapOrder :=
  mapLookup s.orders order_id

/-- The spec-level view of a balance: absent account reads as 0 (spec 4.2). -/
def balanceOf (s : State) (p : Principal) : Nat :=
  ((mapLookup s.accounts p).getD ⟨0⟩).balance

/-- One external state-mutating call, with its caller identity (and the
`time()` value for order creation). -/
inductive Op where
  | depositOp (caller : Principal) (args : DepositArgs)
  | createOp (caller : Principal) (now : Nat) (args : CreateSwapOrderArgs)
  | executeOp (caller : Principal) (order_id : Nat)
  | cancelOp (caller : Principal) (order_id : Nat)
deriving DecidableEq, Repr

/-- The state after one call (the returned value is discarded). -/
def step (s : State) : Op → State
  | .depositOp c args => (deposit c args s).2
  | .createOp c now args => (create_swap_order c now args s).2
  | .executeOp c oid => (execute_swap_order c oid s).2
  | .cancelOp c oid => (cancel_swap_order c oid s).2

/-- The amount accepted by the call when it is a successful deposit, else 0. -/
def depositedOf (s : State) : Op → Nat
  | .depositOp c args =>
    match (deposit c args s).1 with
    | .ok _ => args.amount
    | .err _ => 0
  | _ => 0

/-- Run a sequence of calls. -/
def run : State → List Op → State
  | s, [] => s
  | s, op :: ops => run (step s op) ops

/-- Total of the amounts accepted by successful deposits along a run. -/
def totalDeposited : State → List Op → Nat
  | _, [] => 0
  | s, op :: ops => depositedOf s op + totalDeposited (step s op) ops

/-- Sum of `f` over the values of an association list. -/
def contribSum {K V : Type} (f : V → Nat) (m : List (K × V)) : Nat :=
  (m.map fun p => f p.2).sum

/-- Sum of all account balances. -/
def sumBalances (s : State) : Nat :=
  contribSum (fun a => a.balance) s.accounts

/-- Escrow contribution of one order when its status is `st`. -/
def statusContrib (st : SwapStatus) (o : SwapOrder) : Nat :=
  if o.status = st then o.from_amount else 0

/-- Sum of `from_amount` over orders in status `Created` (the non-terminal
orders). -/
def createdEscrow (s : State) : Nat :=
  contribSum (statusContrib .Created) s.orders

/-- Sum of `from_amount` over orders in status `Executed`. -/
def executedEscrow (s : State) : Nat :=
  contribSum (statusContrib .Executed) s.orders

/-! ### Map lemmas -/

theorem mapLookup_mapInsert_self {K V : Type} [DecidableEq K]
    (m : List (K × V)) (k : K) (v : V) :
    mapLookup (mapInsert m k v) k = some v := by
  induction m with
  | nil => simp [mapLookup, mapInsert]
  | cons hd tl ih =>
    obtain ⟨k0, v0⟩ := hd
    by_cases h : k0 = k
    · simp [mapLookup, mapInsert, h]
    · simp [mapLookup, mapInsert, h, ih]

theorem mapLookup_mapInsert_ne {K V : Type} [DecidableEq K]
    (m : List (K × V)) (k q : K) (v : V) (h : q ≠ k) :
    mapLookup (mapInsert m k v) q = mapLookup m q := by
  have hk : ¬(k = q) := fun hh => h hh.symm
  induction m with
  | nil => simp [mapLookup, mapInsert, hk]
  | cons hd tl ih =>
    obtain ⟨k0, v0⟩ := hd
    by_cases h0 : k0 = k
    · subst h0
      simp [mapLookup, mapInsert, hk]
    · by_cases h1 : k0 = q
      · simp [mapLookup, mapInsert, h0, h1, h]
      · simp [mapLookup, mapInsert, h0, h1, ih]

/-- Contribution of an optional value. -/
def contribOf {V : Type} (f : V → Nat) : Option V → Nat
  | some w => f w
  | none => 0

theorem contribSum_mapInsert {K V : Type} [DecidableEq K]
    (f : V → Nat) (m : List (K × V)) (k : K) (v : V) :
    contribSum f (mapInsert m k v) + contribOf f (mapLookup m k)
      = contribSum f m + f v := by
  induction m with
  | nil => simp [contribSum, contribOf, mapInsert, mapLookup]
  | cons hd tl ih =>
    obtain ⟨k0, v0⟩ := hd
    by_cases h : k0 = k
    · simp [contribSum, contribOf, mapInsert, mapLookup, h]
      omega
    · simp only [mapInsert, mapLookup, if_neg h, contribSum, List.map_cons, List.sum_cons]
      have := ih
      simp only [contribSum] at this
      omega

theorem mapLookup_ensure_account_self (m : List (Principal × UserAccount))
    (p : Principal) :
    mapLookup (ensure_account m p) p = some ((mapLookup m p).getD ⟨0⟩) := by
  unfold ensure_account
  cases h : mapLookup m p with
  | none => simp [mapLookup_mapInsert_self]
  | some a => simp [h]

theorem mapLookup_ensure_account_ne (m : List (Principal × UserAccount))
    (p q : Principal) (h : q ≠ p) :
    mapLookup (ensure_account m p) q = mapLookup m q := by
  unfold ensure_account
  cases hm : mapLookup m p with
  | none => simp [mapLookup_mapInsert_ne _ _ _ _ h]
  | some a => rfl

theorem contribSum_ensure_account (m : List (Principal × UserAccount))
    (p : Principal) :
    contribSum (fun a => a.balance) (ensure_account m p)
      = contribSum (fun a => a.balance) m := by
  unfold ensure_account
  cases hm : mapLookup m p with
  | none =>
    have h := contribSum_mapInsert (fun a => a.balance) m p ⟨0⟩
    rw [hm] at h
    simp only [contribOf] at h
    simpa using h
  | some a => rfl

theorem balance_ensure_account (m : List (Principal × UserAccount))
    (p q : Principal) :
    ((mapLookup (ensure_account m p) q).getD ⟨0⟩).balance
      = ((mapLookup m q).getD ⟨0⟩).balance := by
  by_cases h : q = p
  · subst h
    rw [mapLookup_ensure_account_self]
    simp
  · rw [mapLookup_ensure_account_ne _ _ _ h]

/-! ### transfer_funds characterization -/

theorem transfer_funds_zero (fromP toP : Principal)
    (acc : List (Principal × UserAccount)) :
    transfer_funds fromP toP 0 acc = (.ok (), acc) := by
  unfold transfer_funds
  simp

theorem transfer_funds_self (fromP : Principal) (a : Nat)
    (acc : List (Principal × UserAccount)) :
    transfer_funds fromP fromP a acc = (.ok (), acc) := by
  unfold transfer_funds
  by_cases h : a = 0 <;> simp [h]

theorem transfer_funds_missing (fromP toP : Principal) (a : Nat)
    (acc : List (Principal × UserAccount))
    (ha : a ≠ 0) (hne : fromP ≠ toP) (hm : mapLookup acc fromP = none) :
    transfer_funds fromP toP a acc = (.err .UserNotFound, acc) := by
  unfold transfer_funds
  simp [ha, hne, hm]

theorem transfer_funds_poor (fromP toP : Principal) (a : Nat)
    (acc : List (Principal × UserAccount)) (fa : UserAccount)
    (ha : a ≠ 0) (hne : fromP ≠ toP) (hm : mapLookup acc fromP = some fa)
    (hlt : fa.balance < a) :
    transfer_funds fromP toP a acc = (.err .InsufficientFunds, ensure_account acc toP) := by
  unfold transfer_funds
  simp [ha, hne, hm, hlt]

theorem transfer_funds_rich (fromP toP : Principal) (a : Nat)
    (acc : List (Principal × UserAccount)) (fa : UserAccount)
    (ha : a ≠ 0) (hne : fromP ≠ toP) (hm : mapLookup acc fromP = some fa)
    (hge : a ≤ fa.balance) :
    transfer_funds fromP toP a acc =
      (.ok (),
        mapInsert (mapInsert (ensure_account acc toP) fromP ⟨fa.balance - a⟩)
          toP ⟨((mapLookup acc toP).getD ⟨0⟩).balance + a⟩) := by
  unfold transfer_funds
  simp [ha, hne, hm, Nat.not_lt.mpr hge, mapLookup_ensure_account_self]

/-- The function `transfer_funds` never changes the total of all balances, whether it
succeeds or fails. -/
theorem transfer_funds_sumBal (fromP toP : Principal) (a : Nat)
    (acc : List (Principal × UserAccount)) :
    contribSum (fun x => x.balance) (transfer_funds fromP toP a acc).2
      = contribSum (fun x => x.balance) acc := by
  by_cases ha : a = 0
  · subst ha
    rw [transfer_funds_zero]
  · by_cases hne : fromP = toP
    · subst hne
      rw [transfer_funds_self]
    · cases hm : mapLookup acc fromP with
      | none => rw [transfer_funds_missing fromP toP a acc ha hne hm]
      | some fa =>
        by_cases hlt : fa.balance < a
        · rw [transfer_funds_poor fromP toP a acc fa ha hne hm hlt]
          exact contribSum_ensure_account acc toP
        · have hge : a ≤ fa.balance := Nat.not_lt.mp hlt
          rw [transfer_funds_rich fromP toP a acc fa ha hne hm hge]
          dsimp only
          have h0 : mapLookup (ensure_account acc toP) fromP = some fa := by
            rw [mapLookup_ensure_account_ne _ _ _ hne, hm]
          have h1 := contribSum_mapInsert (fun x => x.balance)
            (ensure_account acc toP) fromP (⟨fa.balance - a⟩ : UserAccount)
          rw [h0] at h1
          have h2 := contribSum_mapInsert (fun x => x.balance)
            (mapInsert (ensure_account acc toP) fromP ⟨fa.balance - a⟩) toP
            (⟨((mapLookup acc toP).getD ⟨0⟩).balance + a⟩ : UserAccount)
          rw [mapLookup_mapInsert_ne _ _ _ _ (fun hh => hne hh.symm),
            mapLookup_ensure_account_self] at h2
          have h3 := contribSum_ensure_account acc toP
          simp only [contribOf] at h1 h2
          omega

/-- Balances after a successful rich-path transfer. -/
theorem transfer_funds_rich_balances (fromP toP : Principal) (a : Nat)
    (acc : List (Principal × UserAccount)) (fa : UserAccount)
    (ha : a ≠ 0) (hne : fromP ≠ toP) (hm : mapLookup acc fromP = some fa)
    (hge : a ≤ fa.balance) :
    ((mapLookup (transfer_funds fromP toP a acc).2 fromP).getD ⟨0⟩).balance
        = fa.balance - a ∧
    ((mapLookup (transfer_funds fromP toP a acc).2 toP).getD ⟨0⟩).balance
        = ((mapLookup acc toP).getD ⟨0⟩).balance + a := by
  rw [transfer_funds_rich fromP toP a acc fa ha hne hm hge]
  constructor
  · rw [mapLookup_mapInsert_ne _ _ _ _ hne, mapLookup_mapInsert_self]
    simp
  · rw [mapLookup_mapInsert_self]
    simp

/-- Whether it succeeds or fails, `transfer_funds` leaves every balance
unchanged except, on the rich path, the sender's and the recipient's. -/
theorem transfer_funds_balance_other (fromP toP : Principal) (a : Nat)
    (acc : List (Principal × UserAccount)) (p : Principal)
    (hpf : p ≠ fromP) (hpt : p ≠ toP) :
    ((mapLookup (transfer_funds fromP toP a acc).2 p).getD ⟨0⟩).balance
      = ((mapLookup acc p).getD ⟨0⟩).balance := by
  by_cases ha : a = 0
  · subst ha
    rw [transfer_funds_zero]
  · by_cases hne : fromP = toP
    · subst hne
      rw [transfer_funds_self]
    · cases hm : mapLookup acc fromP with
      | none => rw [transfer_funds_missing fromP toP a acc ha hne hm]
      | some fa =>
        by_cases hlt : fa.balance < a
        · rw [transfer_funds_poor fromP toP a acc fa ha hne hm hlt]
          exact balance_ensure_account acc toP p
        · have hge : a ≤ fa.balance := Nat.not_lt.mp hlt
          rw [transfer_funds_rich fromP toP a acc fa ha hne hm hge]
          rw [mapLookup_mapInsert_ne _ _ _ _ hpt, mapLookup_mapInsert_ne _ _ _ _ hpf]
          exact balance_ensure_account acc toP p

/-- On any failure of `transfer_funds`, no balance changes (in the
absent-reads-as-0 view). -/
theorem transfer_funds_err_balances (fromP toP : Principal) (a : Nat)
    (acc : List (Principal × UserAccount)) (e : Error)
    (he : (transfer_funds fromP toP a acc).1 = .err e) (p : Principal) :
    ((mapLookup (transfer_funds fromP toP a acc).2 p).getD ⟨0⟩).balance
      = ((mapLookup acc p).getD ⟨0⟩).balance := by
  by_cases ha : a = 0
  · subst ha
    rw [transfer_funds_zero]
  · by_cases hne : fromP = toP
    · subst hne
      rw [transfer_funds_self]
    · cases hm : mapLookup acc fromP with
      | none => rw [transfer_funds_missing fromP toP a acc ha hne hm]
      | some fa =>
        by_cases hlt : fa.balance < a
        · rw [transfer_funds_poor fromP toP a acc fa ha hne hm hlt]
          exact balance_ensure_account acc toP p
        · have hge : a ≤ fa.balance := Nat.not_lt.mp hlt
          rw [transfer_funds_rich fromP toP a acc fa ha hne hm hge] at he
          exact absurd he (by simp)

/-! ### deposit characterization -/

theorem deposit_zero_amount (c : Principal) (args : DepositArgs) (s : State)
    (h : args.amount = 0) : deposit c args s = (.err .InvalidAmount, s) := by
  unfold deposit
  simp [h]

theorem deposit_bad_currency (c : Principal) (args : DepositArgs) (s : State)
    (h0 : args.amount ≠ 0) (h1 : is_valid_currency args.currency = false) :
    deposit c args s = (.err .InvalidCurrency, s) := by
  unfold deposit
  simp [h0, h1]

theorem deposit_ok (c : Principal) (args : DepositArgs) (s : State)
    (h0 : args.amount ≠ 0) (h1 : is_valid_currency args.currency = true) :
    deposit c args s =
      (.ok (),
        { s with accounts := (mapInsert s.accounts c
            ⟨((mapLookup s.accounts c).getD ⟨0⟩).balance + args.amount⟩) }) := by
  unfold deposit
  simp [h0, h1]

/-- A read-modify-write that adds `d` to one balance adds `d` to the total. -/
theorem sumBal_insert_add (m : List (Principal × UserAccount)) (p : Principal)
    (b d : Nat) (hb : ((mapLookup m p).getD ⟨0⟩).balance = b) :
    contribSum (fun a => a.balance) (mapInsert m p ⟨b + d⟩)
      = contribSum (fun a => a.balance) m + d := by
  have h := contribSum_mapInsert (fun a => a.balance) m p (⟨b + d⟩ : UserAccount)
  cases hm : mapLookup m p with
  | none =>
    rw [hm] at h hb
    simp only [contribOf] at h
    simp at hb
    omega
  | some a =>
    rw [hm] at h hb
    simp only [contribOf] at h
    simp at hb
    omega

/-- A read-modify-write that subtracts `d ≤ balance` from one balance
subtracts `d` from the total. -/
theorem sumBal_insert_sub (m : List (Principal × UserAccount)) (p : Principal)
    (b d : Nat) (hb : ((mapLookup m p).getD ⟨0⟩).balance = b) (hle : d ≤ b) :
    contribSum (fun a => a.balance) (mapInsert m p ⟨b - d⟩) + d
      = contribSum (fun a => a.balance) m := by
  have h := contribSum_mapInsert (fun a => a.balance) m p (⟨b - d⟩ : UserAccount)
  cases hm : mapLookup m p with
  | none =>
    rw [hm] at h hb
    simp only [contribOf] at h
    simp at hb
    omega
  | some a =>
    rw [hm] at h hb
    simp only [contribOf] at h
    simp at hb
    omega

/-! ### create_swap_order characterization -/

theorem create_invalid_amount (c : Principal) (now : Nat)
    (args : CreateSwapOrderArgs) (s : State)
    (h : args.from_amount = 0 ∨ args.to_amount = 0) :
    create_swap_order c now args s = (.ret (.err .InvalidAmount), s) := by
  unfold create_swap_order
  simp [h]

theorem create_invalid_currency (c : Principal) (now : Nat)
    (args : CreateSwapOrderArgs) (s : State)
    (h0 : args.from_amount ≠ 0) (h1 : args.to_amount ≠ 0)
    (h2 : is_valid_currency args.from_currency = false ∨
          is_valid_currency args.to_currency = false) :
    create_swap_order c now args s = (.ret (.err .InvalidCurrency), s) := by
  unfold create_swap_order
  simp [h0, h1, h2]

theorem create_invalid_price (c : Principal) (now : Nat)
    (args : CreateSwapOrderArgs) (s : State)
    (h0 : args.from_amount ≠ 0) (h1 : args.to_amount ≠ 0)
    (h2 : is_valid_currency args.from_currency = true)
    (h3 : is_valid_currency args.to_currency = true)
    (h4 : has_invalid_price args.order_type = true) :
    create_swap_order c now args s = (.ret (.err .InvalidPrice), s) := by
  unfold create_swap_order
  simp [h0, h1, h2, h3, h4]

theorem create_insufficient (c : Principal) (now : Nat)
    (args : CreateSwapOrderArgs) (s : State)
    (h0 : args.from_amount ≠ 0) (h1 : args.to_amount ≠ 0)
    (h2 : is_valid_currency args.from_currency = true)
    (h3 : is_valid_currency args.to_currency = true)
    (h4 : has_invalid_price args.order_type = false)
    (h5 : balanceOf s c < args.from_amount) :
    create_swap_order c now args s =
      (.ret (.err .InsufficientFunds), { s with accounts := ensure_account s.accounts c }) := by
  unfold create_swap_order
  have he := mapLookup_ensure_account_self s.accounts c
  simp [h0, h1, h2, h3, h4, he, balanceOf] at h5 ⊢
  exact h5

/-- Every call that passes validation and whose caller can cover
`from_amount` reaches the id-allocation block and traps (lib.rs lines
222-228: `borrow_mut` under the live shared guard `binding`); the runtime
rolls the call back to its entry state. -/
theorem create_trap (c : Principal) (now : Nat)
    (args : CreateSwapOrderArgs) (s : State)
    (h0 : args.from_amount ≠ 0) (h1 : args.to_amount ≠ 0)
    (h2 : is_valid_currency args.from_currency = true)
    (h3 : is_valid_currency args.to_currency = true)
    (h4 : has_invalid_price args.order_type = false)
    (h5 : args.from_amount ≤ balanceOf s c) :
    create_swap_order c now args s = (.trap, s) := by
  unfold create_swap_order
  have he := mapLookup_ensure_account_self s.accounts c
  simp [h0, h1, h2, h3, h4, he, balanceOf] at h5 ⊢
  exact h5

/-! ### execute_swap_order characterization -/

theorem execute_anonymous_guard (executor : Principal) (oid : Nat) (s : State)
    (h : executor = anonymous) :
    execute_swap_order executor oid s = (.err .AnonymousNotAllowed, s) := by
  unfold execute_swap_order
  simp [h]

theorem execute_no_order (executor : Principal) (oid : Nat) (s : State)
    (h : executor ≠ anonymous) (h1 : mapLookup s.orders oid = none) :
    execute_swap_order executor oid s = (.err .InvalidOrderId, s) := by
  unfold execute_swap_order
  simp [h, h1]

theorem execute_bad_status (executor : Principal) (oid : Nat) (s : State)
    (o : SwapOrder) (h : executor ≠ anonymous)
    (h1 : mapLookup s.orders oid = some o) (h2 : o.status ≠ SwapStatus.Created) :
    execute_swap_order executor oid s = (.err .InvalidOrderStatus, s) := by
  unfold execute_swap_order
  simp [h, h1, h2]

theorem execute_owner_guard (executor : Principal) (oid : Nat) (s : State)
    (o : SwapOrder) (h : executor ≠ anonymous)
    (h1 : mapLookup s.orders oid = some o) (h2 : o.status = SwapStatus.Created)
    (h3 : o.owner = executor) :
    execute_swap_order executor oid s = (.err .OwnerCannotExecute, s) := by
  unfold execute_swap_order
  simp [h, h1, h2, h3]

theorem execute_limit_not_met (executor : Principal) (oid : Nat) (s : State)
    (o : SwapOrder) (price : Rat) (h : executor ≠ anonymous)
    (h1 : mapLookup s.orders oid = some o) (h2 : o.status = SwapStatus.Created)
    (h3 : o.owner ≠ executor) (h4 : o.order_type = .Limit price)
    (h5 : is_price_condition_met price = false) :
    execute_swap_order executor oid s = (.err .PriceConditionNotMet, s) := by
  unfold execute_swap_order
  simp [h, h1, h2, h3, h4, h5]

/-- An order is eligible for settlement when it is a market order or a limit
order whose price condition is met. -/
def eligible (t : OrderType) : Prop :=
  t = .Market ∨ ∃ price, t = .Limit price ∧ is_price_condition_met price = true

theorem execute_eligible_ok (executor : Principal) (oid : Nat) (s : State)
    (o : SwapOrder) (acc1 : List (Principal × UserAccount))
    (h : executor ≠ anonymous)
    (h1 : mapLookup s.orders oid = some o) (h2 : o.status = SwapStatus.Created)
    (h3 : o.owner ≠ executor) (helig : eligible o.order_type)
    (ht : transfer_funds executor o.owner o.to_amount s.accounts = (.ok (), acc1)) :
    execute_swap_order executor oid s =
      (.ok (),
        { s with
          accounts := acc1
          orders := mapInsert s.orders oid { o with status := .Executed } }) := by
  unfold execute_swap_order
  rcases helig with hm | ⟨price, hp, hmet⟩
  · simp [h, h1, h2, h3, hm, ht]
  · simp [h, h1, h2, h3, hp, hmet, ht]

theorem execute_eligible_err (executor : Principal) (oid : Nat) (s : State)
    (o : SwapOrder) (e : Error) (acc1 : List (Principal × UserAccount))
    (h : executor ≠ anonymous)
    (h1 : mapLookup s.orders oid = some o) (h2 : o.status = SwapStatus.Created)
    (h3 : o.owner ≠ executor) (helig : eligible o.order_type)
    (ht : transfer_funds executor o.owner o.to_amount s.accounts = (.err e, acc1)) :
    execute_swap_order executor oid s = (.err e, { s with accounts := acc1 }) := by
  unfold execute_swap_order
  rcases helig with hm | ⟨price, hp, hmet⟩
  · simp [h, h1, h2, h3, hm, ht]
  · simp [h, h1, h2, h3, hp, hmet, ht]

/-! ### cancel_swap_order characterization -/

theorem cancel_no_order (c : Principal) (oid : Nat) (s : State)
    (h : mapLookup s.orders oid = none) :
    cancel_swap_order c oid s = (.err .InvalidOrderId, s) := by
  unfold cancel_swap_order
  simp [h]

theorem cancel_bad_status (c : Principal) (oid : Nat) (s : State) (o : SwapOrder)
    (h1 : mapLookup s.orders oid = some o) (h2 : o.status ≠ SwapStatus.Created) :
    cancel_swap_order c oid s = (.err .InvalidOrderStatus, s) := by
  unfold cancel_swap_order
  simp [h1, h2]

theorem cancel_unauthorized (c : Principal) (oid : Nat) (s : State) (o : SwapOrder)
    (h1 : mapLookup s.orders oid = some o) (h2 : o.status = SwapStatus.Created)
    (h3 : o.owner ≠ c) :
    cancel_swap_order c oid s = (.err .Unauthorized, s) := by
  unfold cancel_swap_order
  simp [h1, h2, h3]

theorem cancel_ok (c : Principal) (oid : Nat) (s : State) (o : SwapOrder)
    (h1 : mapLookup s.orders oid = some o) (h2 : o.status = SwapStatus.Created)
    (h3 : o.owner = c) :
    cancel_swap_order c oid s =
      (.ok (),
        { s with
          accounts := (mapInsert (ensure_account s.accounts c) c
            ⟨balanceOf s c + o.from_amount⟩)
          orders := mapInsert s.orders oid { o with status := .Cancelled } }) := by
  unfold cancel_swap_order
  have he := mapLookup_ensure_account_self s.accounts c
  simp [h1, h2, h3, he, balanceOf]

/-! ### Conservation invariant -/

/-- The conserved quantity: all balances plus the `from_amount` escrow of
every order that is not `Cancelled`. -/
def wealth (s : State) : Nat :=
  sumBalances s + createdEscrow s + executedEscrow s

theorem deposit_orders_counter (c : Principal) (args : DepositArgs) (s : State) :
    (deposit c args s).2.orders = s.orders ∧ (deposit c args s).2.counter = s.counter := by
  unfold deposit
  split
  · exact ⟨rfl, rfl⟩
  · split
    · exact ⟨rfl, rfl⟩
    · exact ⟨rfl, rfl⟩

theorem deposit_wealth (c : Principal) (args : DepositArgs) (s : State) :
    wealth (deposit c args s).2 = wealth s + depositedOf s (Op.depositOp c args) := by
  by_cases h0 : args.amount = 0
  · have hd := deposit_zero_amount c args s h0
    simp [depositedOf, hd]
  · cases h1 : is_valid_currency args.currency with
    | false =>
      have hd := deposit_bad_currency c args s h0 h1
      simp [depositedOf, hd]
    | true =>
      have hd := deposit_ok c args s h0 h1
      simp only [depositedOf, hd, wealth, sumBalances, createdEscrow, executedEscrow]
      rw [sumBal_insert_add s.accounts c _ args.amount rfl]
      ring

theorem create_orders_effect (c : Principal) (now : Nat)
    (args : CreateSwapOrderArgs) (s : State) :
    (create_swap_order c now args s).2.orders = s.orders ∧
    (create_swap_order c now args s).2.counter = s.counter := by
  by_cases h0 : args.from_amount = 0 ∨ args.to_amount = 0
  · rw [create_invalid_amount c now args s h0]
    exact ⟨rfl, rfl⟩
  · push_neg at h0
    obtain ⟨h0a, h0b⟩ := h0
    by_cases h2 : is_valid_currency args.from_currency = false ∨
        is_valid_currency args.to_currency = false
    · rw [create_invalid_currency c now args s h0a h0b h2]
      exact ⟨rfl, rfl⟩
    · push_neg at h2
      obtain ⟨h2a, h2b⟩ := h2
      replace h2a : is_valid_currency args.from_currency = true := by
        simpa using h2a
      replace h2b : is_valid_currency args.to_currency = true := by
        simpa using h2b
      cases h4 : has_invalid_price args.order_type with
      | true =>
        rw [create_invalid_price c now args s h0a h0b h2a h2b h4]
        exact ⟨rfl, rfl⟩
      | false =>
        by_cases h5 : balanceOf s c < args.from_amount
        · rw [create_insufficient c now args s h0a h0b h2a h2b h4 h5]
          exact ⟨rfl, rfl⟩
        · have h5a : args.from_amount ≤ balanceOf s c := Nat.not_lt.mp h5
          rw [create_trap c now args s h0a h0b h2a h2b h4 h5a]
          exact ⟨rfl, rfl⟩

theorem create_wealth (c : Principal) (now : Nat)
    (args : CreateSwapOrderArgs) (s : State) :
    wealth (create_swap_order c now args s).2 = wealth s := by
  by_cases h0 : args.from_amount = 0 ∨ args.to_amount = 0
  · rw [create_invalid_amount c now args s h0]
  · push_neg at h0
    obtain ⟨h0a, h0b⟩ := h0
    by_cases h2 : is_valid_currency args.from_currency = false ∨
        is_valid_currency args.to_currency = false
    · rw [create_invalid_currency c now args s h0a h0b h2]
    · push_neg at h2
      obtain ⟨h2a, h2b⟩ := h2
      replace h2a : is_valid_currency args.from_currency = true := by
        simpa using h2a
      replace h2b : is_valid_currency args.to_currency = true := by
        simpa using h2b
      cases h4 : has_invalid_price args.order_type with
      | true =>
        rw [create_invalid_price c now args s h0a h0b h2a h2b h4]
      | false =>
        by_cases h5 : balanceOf s c < args.from_amount
        · rw [create_insufficient c now args s h0a h0b h2a h2b h4 h5]
          simp only [wealth, sumBalances, createdEscrow, executedEscrow]
          rw [contribSum_ensure_account]
        · have h5a : args.from_amount ≤ balanceOf s c := Nat.not_lt.mp h5
          rw [create_trap c now args s h0a h0b h2a h2b h4 h5a]

theorem execute_wealth (executor : Principal) (oid : Nat) (s : State) :
    wealth (execute_swap_order executor oid s).2 = wealth s := by
  by_cases hanon : executor = anonymous
  · rw [execute_anonymous_guard executor oid s hanon]
  · cases hord : mapLookup s.orders oid with
    | none => rw [execute_no_order executor oid s hanon hord]
    | some o =>
      by_cases hstat : o.status = SwapStatus.Created
      · by_cases howner : o.owner = executor
        · rw [execute_owner_guard executor oid s o hanon hord hstat howner]
        · have helig_or : eligible o.order_type ∨
              ∃ price, o.order_type = .Limit price ∧
                is_price_condition_met price = false := by
            cases ht : o.order_type with
            | Market => exact Or.inl (Or.inl rfl)
            | Limit price =>
              cases hmet : is_price_condition_met price with
              | true => exact Or.inl (Or.inr ⟨price, rfl, hmet⟩)
              | false => exact Or.inr ⟨price, rfl, hmet⟩
          rcases helig_or with helig | ⟨price, hp, hmet⟩
          · have hsb := transfer_funds_sumBal executor o.owner o.to_amount s.accounts
            cases htr : transfer_funds executor o.owner o.to_amount s.accounts with
            | mk r acc1 =>
              rw [htr] at hsb
              cases r with
              | ok u =>
                cases u
                rw [execute_eligible_ok executor oid s o acc1 hanon hord hstat howner helig htr]
                simp only [wealth, sumBalances, createdEscrow, executedEscrow]
                have hcre := contribSum_mapInsert (statusContrib .Created) s.orders
                  oid ({ o with status := .Executed } : SwapOrder)
                have hexe := contribSum_mapInsert (statusContrib .Executed) s.orders
                  oid ({ o with status := .Executed } : SwapOrder)
                rw [hord] at hcre hexe
                simp only [contribOf] at hcre hexe
                have hc1 : statusContrib SwapStatus.Created o = o.from_amount := by
                  simp [statusContrib, hstat]
                have hc2 : statusContrib SwapStatus.Created
                    ({ o with status := .Executed } : SwapOrder) = 0 := by
                  simp [statusContrib]
                have hc3 : statusContrib SwapStatus.Executed o = 0 := by
                  simp [statusContrib, hstat]
                have hc4 : statusContrib SwapStatus.Executed
                    ({ o with status := .Executed } : SwapOrder) = o.from_amount := by
                  simp [statusContrib]
                rw [hc1, hc2] at hcre
                rw [hc3, hc4] at hexe
                simp only at hsb
                omega
              | err e =>
                rw [execute_eligible_err executor oid s o e acc1 hanon hord hstat howner helig htr]
                simp only [wealth, sumBalances, createdEscrow, executedEscrow]
                simp only at hsb
                omega
          · rw [execute_limit_not_met executor oid s o price hanon hord hstat howner hp hmet]
      · rw [execute_bad_status executor oid s o hanon hord hstat]

theorem cancel_wealth (c : Principal) (oid : Nat) (s : State) :
    wealth (cancel_swap_order c oid s).2 = wealth s := by
  cases hord : mapLookup s.orders oid with
  | none => rw [cancel_no_order c oid s hord]
  | some o =>
    by_cases hstat : o.status = SwapStatus.Created
    · by_cases howner : o.owner = c
      · rw [cancel_ok c oid s o hord hstat howner]
        simp only [wealth, sumBalances, createdEscrow, executedEscrow]
        have hbal : ((mapLookup (ensure_account s.accounts c) c).getD ⟨0⟩).balance
            = balanceOf s c := by
          rw [mapLookup_ensure_account_self]
          rfl
        have hadd := sumBal_insert_add (ensure_account s.accounts c) c
          (balanceOf s c) o.from_amount hbal
        rw [contribSum_ensure_account] at hadd
        have hcre := contribSum_mapInsert (statusContrib .Created) s.orders
          oid ({ o with status := .Cancelled } : SwapOrder)
        have hexe := contribSum_mapInsert (statusContrib .Executed) s.orders
          oid ({ o with status := .Cancelled } : SwapOrder)
        rw [hord] at hcre hexe
        simp only [contribOf] at hcre hexe
        have hc1 : statusContrib SwapStatus.Created o = o.from_amount := by
          simp [statusContrib, hstat]
        have hc2 : statusContrib SwapStatus.Created
            ({ o with status := .Cancelled } : SwapOrder) = 0 := by
          simp [statusContrib]
        have hc3 : statusContrib SwapStatus.Executed o = 0 := by
          simp [statusContrib, hstat]
        have hc4 : statusContrib SwapStatus.Executed
            ({ o with status := .Cancelled } : SwapOrder) = 0 := by
          simp [statusContrib]
        rw [hc1, hc2] at hcre
        rw [hc3, hc4] at hexe
        omega
      · rw [cancel_unauthorized c oid s o hord hstat howner]
    · rw [cancel_bad_status c oid s o hord hstat]

theorem execute_orders_effect (executor : Principal) (oid : Nat) (s : State) :
    ((execute_swap_order executor oid s).2.orders = s.orders ∧
      (execute_swap_order executor oid s).2.counter = s.counter) ∨
    (∃ o, mapLookup s.orders oid = some o ∧
      (execute_swap_order executor oid s).2.orders
        = mapInsert s.orders oid { o with status := .Executed } ∧
      (execute_swap_order executor oid s).2.counter = s.counter) := by
  by_cases hanon : executor = anonymous
  · rw [execute_anonymous_guard executor oid s hanon]
    exact Or.inl ⟨rfl, rfl⟩
  · cases hord : mapLookup s.orders oid with
    | none =>
      rw [execute_no_order executor oid s hanon hord]
      exact Or.inl ⟨rfl, rfl⟩
    | some o =>
      by_cases hstat : o.status = SwapStatus.Created
      · by_cases howner : o.owner = executor
        · rw [execute_owner_guard executor oid s o hanon hord hstat howner]
          exact Or.inl ⟨rfl, rfl⟩
        · have helig_or : eligible o.order_type ∨
              ∃ price, o.order_type = .Limit price ∧
                is_price_condition_met price = false := by
            cases ht : o.order_type with
            | Market => exact Or.inl (Or.inl rfl)
            | Limit price =>
              cases hmet : is_price_condition_met price with
              | true => exact Or.inl (Or.inr ⟨price, rfl, hmet⟩)
              | false => exact Or.inr ⟨price, rfl, hmet⟩
          rcases helig_or with helig | ⟨price, hp, hmet⟩
          · cases htr : transfer_funds executor o.owner o.to_amount s.accounts with
            | mk r acc1 =>
              cases r with
              | ok u =>
                cases u
                rw [execute_eligible_ok executor oid s o acc1 hanon hord hstat howner helig htr]
                exact Or.inr ⟨o, rfl, rfl, rfl⟩
              | err e =>
                rw [execute_eligible_err executor oid s o e acc1 hanon hord hstat howner helig htr]
                exact Or.inl ⟨rfl, rfl⟩
          · rw [execute_limit_not_met executor oid s o price hanon hord hstat howner hp hmet]
            exact Or.inl ⟨rfl, rfl⟩
      · rw [execute_bad_status executor oid s o hanon hord hstat]
        exact Or.inl ⟨rfl, rfl⟩

theorem cancel_orders_effect (c : Principal) (oid : Nat) (s : State) :
    ((cancel_swap_order c oid s).2.orders = s.orders ∧
      (cancel_swap_order c oid s).2.counter = s.counter) ∨
    (∃ o, mapLookup s.orders oid = some o ∧
      (cancel_swap_order c oid s).2.orders
        = mapInsert s.orders oid { o with status := .Cancelled } ∧
      (cancel_swap_order c oid s).2.counter = s.counter) := by
  cases hord : mapLookup s.orders oid with
  | none =>
    rw [cancel_no_order c oid s hord]
    exact Or.inl ⟨rfl, rfl⟩
  | some o =>
    by_cases hstat : o.status = SwapStatus.Created
    · by_cases howner : o.owner = c
      · rw [cancel_ok c oid s o hord hstat howner]
        exact Or.inr ⟨o, rfl, rfl, rfl⟩
      · rw [cancel_unauthorized c oid s o hord hstat howner]
        exact Or.inl ⟨rfl, rfl⟩
    · rw [cancel_bad_status c oid s o hord hstat]
      exact Or.inl ⟨rfl, rfl⟩

theorem step_wealth (s : State) (op : Op) :
    wealth (step s op) = wealth s + depositedOf s op := by
  cases op with
  | depositOp c args => exact deposit_wealth c args s
  | createOp c now args =>
    simp only [step, depositedOf]
    rw [create_wealth c now args s]
    omega
  | executeOp c oid =>
    simp only [step, depositedOf]
    rw [execute_wealth c oid s]
    omega
  | cancelOp c oid =>
    simp only [step, depositedOf]
    rw [cancel_wealth c oid s]
    omega

theorem run_wealth (ops : List Op) :
    ∀ s : State, wealth (run s ops) = wealth s + totalDeposited s ops := by
  induction ops with
  | nil =>
    intro s
    simp [run, totalDeposited]
  | cons op ops ih =>
    intro s
    have hw1 := step_wealth s op
    have hw := ih (step s op)
    simp only [run, totalDeposited]
    rw [hw, hw1]
    omega

/-- No operation can put an order into an empty order store: creation traps
before its insert, and execution and cancellation require an existing
order. -/
theorem step_orders_nil (s : State) (op : Op) (h : s.orders = []) :
    (step s op).orders = [] := by
  cases op with
  | depositOp c args =>
    simp only [step]
    rw [(deposit_orders_counter c args s).1, h]
  | createOp c now args =>
    simp only [step]
    rw [(create_orders_effect c now args s).1, h]
  | executeOp c oid =>
    rcases execute_orders_effect c oid s with ⟨ho, _⟩ | ⟨o, hlk, _, _⟩
    · simp only [step]
      rw [ho, h]
    · rw [h] at hlk
      simp [mapLookup] at hlk
  | cancelOp c oid =>
    rcases cancel_orders_effect c oid s with ⟨ho, _⟩ | ⟨o, hlk, _, _⟩
    · simp only [step]
      rw [ho, h]
    · rw [h] at hlk
      simp [mapLookup] at hlk

theorem run_orders_nil (ops : List Op) :
    ∀ s : State, s.orders = [] → (run s ops).orders = [] := by
  induction ops with
  | nil =>
    intro s h
    exact h
  | cons op ops ih =>
    intro s h
    exact ih (step s op) (step_orders_nil s op h)

/-! ### Claim theorems -/

/-- Claim C1: after any sequence of the exposed operations starting from
the empty state, the sum of all account balances plus the sum of
`from_amount` over all orders whose status is non-terminal (`Created`)
equals the sum of all amounts accepted by successful deposit calls.
Deposits are the only balance-creating events; moreover, because every
otherwise-successful `create_swap_order` traps at id allocation and rolls
back, no order is ever stored starting from the empty state, so the escrow
term is 0 and no escrow or settlement ever perturbs the sum. -/
theorem conservation_of_funds (ops : List Op) :
    sumBalances (run State.empty ops) + createdEscrow (run State.empty ops)
      = totalDeposited State.empty ops := by
  have hw := run_wealth ops State.empty
  have h0 : wealth State.empty = 0 := rfl
  rw [h0] at hw
  have hnil : (run State.empty ops).orders = [] :=
    run_orders_nil ops State.empty rfl
  have hcE : createdEscrow (run State.empty ops) = 0 := by
    simp [createdEscrow, contribSum, hnil]
  have heE : executedEscrow (run State.empty ops) = 0 := by
    simp [executedEscrow, contribSum, hnil]
  simp only [wealth] at hw
  omega

/-- Claim C5: `execute_swap_order` checks its guards in order: anonymous
executor (`AnonymousNotAllowed`), then missing order (`InvalidOrderId`),
then non-`Created` status (`InvalidOrderStatus`), then executor being the
owner (`OwnerCannotExecute`); each failure leaves the state unchanged. -/
theorem execute_guard_order (executor : Principal) (oid : Nat) (s : State) :
    (executor = anonymous →
      execute_swap_order executor oid s = (.err .AnonymousNotAllowed, s)) ∧
    (executor ≠ anonymous → mapLookup s.orders oid = none →
      execute_swap_order executor oid s = (.err .InvalidOrderId, s)) ∧
    (∀ o, executor ≠ anonymous → mapLookup s.orders oid = some o →
      o.status ≠ SwapStatus.Created →
      execute_swap_order executor oid s = (.err .InvalidOrderStatus, s)) ∧
    (∀ o, executor ≠ anonymous → mapLookup s.orders oid = some o →
      o.status = SwapStatus.Created → o.owner = executor →
      execute_swap_order executor oid s = (.err .OwnerCannotExecute, s)) :=
  ⟨fun h => execute_anonymous_guard executor oid s h,
   fun h h1 => execute_no_order executor oid s h h1,
   fun o h h1 h2 => execute_bad_status executor oid s o h h1 h2,
   fun o h h1 h2 h3 => execute_owner_guard executor oid s o h h1 h2 h3⟩

/-- A `Created` order of owner 1 used in guard witnesses. -/
def wOrder : SwapOrder :=
  ⟨1, 1, "USD", "EUR", 10, 10, .Market, 0, .Created⟩

/-- A `Cancelled` order of owner 1 used in guard witnesses. -/
def wOrderCancelled : SwapOrder :=
  ⟨1, 1, "USD", "EUR", 10, 10, .Market, 0, .Cancelled⟩

/-- Witness for C5: each of the four guards observed on a concrete state. -/
theorem execute_guard_order_witness :
    execute_swap_order 0 1 State.empty = (.err .AnonymousNotAllowed, State.empty) ∧
    execute_swap_order 2 1 State.empty = (.err .InvalidOrderId, State.empty) ∧
    execute_swap_order 2 1 ⟨[], [(1, wOrderCancelled)], 1⟩
      = (.err .InvalidOrderStatus, ⟨[], [(1, wOrderCancelled)], 1⟩) ∧
    execute_swap_order 1 1 ⟨[], [(1, wOrder)], 1⟩
      = (.err .OwnerCannotExecute, ⟨[], [(1, wOrder)], 1⟩) :=
  ⟨(execute_guard_order 0 1 State.empty).1 rfl,
   (execute_guard_order 2 1 State.empty).2.1 (by decide) rfl,
   (execute_guard_order 2 1 ⟨[], [(1, wOrderCancelled)], 1⟩).2.2.1
     wOrderCancelled (by decide) rfl (by decide),
   (execute_guard_order 1 1 ⟨[], [(1, wOrder)], 1⟩).2.2.2
     wOrder (by decide) rfl rfl rfl⟩

/-- Claim C6: executing a `Created` limit order whose price condition the
oracle reports as not met fails with `PriceConditionNotMet` and leaves the
entire state (order store and all balances) unchanged, so the order stays
`Created` and the call can be retried. -/
theorem execute_limit_price_not_met_spec (executor : Principal) (oid : Nat)
    (s : State) (o : SwapOrder) (price : Rat)
    (h1 : mapLookup s.orders oid = some o) (h2 : o.status = SwapStatus.Created)
    (h4 : o.order_type = .Limit price)
    (hanon : executor ≠ anonymous) (hdiff : o.owner ≠ executor)
    (hmet : is_price_condition_met price = false) :
    execute_swap_order executor oid s = (.err .PriceConditionNotMet, s) :=
  execute_limit_not_met executor oid s o price hanon h1 h2 hdiff h4 hmet

/-- A `Created` limit order with price 2 (condition not met) for the C6
witness. -/
def wOrderLimit : SwapOrder :=
  ⟨1, 1, "USD", "EUR", 10, 10, .Limit 2, 0, .Created⟩

/-- Witness for C6: executing the limit order with price 2 fails with
`PriceConditionNotMet` and leaves the state unchanged. -/
theorem execute_limit_price_not_met_witness :
    execute_swap_order 2 1 ⟨[], [(1, wOrderLimit)], 1⟩
      = (.err .PriceConditionNotMet, ⟨[], [(1, wOrderLimit)], 1⟩) :=
  execute_limit_price_not_met_spec 2 1 ⟨[], [(1, wOrderLimit)], 1⟩
    wOrderLimit 2 rfl rfl rfl (by decide) (by decide)
    (by simp [is_price_condition_met]; norm_num)

/-- Claim C3: cancelling a `Created` order as its owner succeeds, credits
exactly `from_amount` back to the owner, and marks the order `Cancelled`;
a second cancellation (by anyone) then returns `InvalidOrderStatus` and
changes nothing at all, so there is no double refund. -/
theorem cancel_created_order_spec (c : Principal) (oid : Nat) (s : State)
    (o : SwapOrder)
    (h1 : mapLookup s.orders oid = some o) (h2 : o.status = SwapStatus.Created)
    (h3 : o.owner = c) :
    (cancel_swap_order c oid s).1 = .ok () ∧
    balanceOf (cancel_swap_order c oid s).2 c = balanceOf s c + o.from_amount ∧
    mapLookup (cancel_swap_order c oid s).2.orders oid
      = some { o with status := .Cancelled } ∧
    (∀ c2 : Principal,
      cancel_swap_order c2 oid (cancel_swap_order c oid s).2
        = (.err .InvalidOrderStatus, (cancel_swap_order c oid s).2)) := by
  rw [cancel_ok c oid s o h1 h2 h3]
  refine ⟨rfl, ?_, ?_, ?_⟩
  · simp only [balanceOf]
    rw [mapLookup_mapInsert_self]
    rfl
  · exact mapLookup_mapInsert_self _ _ _
  · intro c2
    exact cancel_bad_status c2 oid _ { o with status := .Cancelled }
      (mapLookup_mapInsert_self _ _ _) (by simp)

/-- The state for the C3 witness: owner 1 has balance 10 and a `Created`
order with id 7 escrowing 20. -/
def c3state : State :=
  ⟨[(1, ⟨10⟩)], [(7, ⟨7, 1, "USD", "EUR", 20, 30, .Market, 0, .Created⟩)], 7⟩

/-- Witness for C3 at a concrete state: the cancellation refunds 20 and a
second cancellation by another caller fails without changing the state. -/
theorem cancel_created_order_witness :
    (cancel_swap_order 1 7 c3state).1 = .ok () ∧
    balanceOf (cancel_swap_order 1 7 c3state).2 1 = balanceOf c3state 1 + 20 ∧
    mapLookup (cancel_swap_order 1 7 c3state).2.orders 7
      = some ⟨7, 1, "USD", "EUR", 20, 30, .Market, 0, .Cancelled⟩ ∧
    cancel_swap_order 2 7 (cancel_swap_order 1 7 c3state).2
      = (.err .InvalidOrderStatus, (cancel_swap_order 1 7 c3state).2) := by
  have h := cancel_created_order_spec 1 7 c3state
    ⟨7, 1, "USD", "EUR", 20, 30, .Market, 0, .Created⟩ rfl rfl rfl
  exact ⟨h.1, h.2.1, h.2.2.1, h.2.2.2 2⟩

/-- Claim C4: executing a `Created` market order as a non-anonymous
non-owner whose balance covers `to_amount` succeeds, debits the executor by
exactly `to_amount`, credits the owner by exactly `to_amount`, and marks the
order `Executed`; any immediately following execution attempt on the same
order by a non-anonymous caller fails with `InvalidOrderStatus`. -/
theorem execute_market_order_spec (executor : Principal) (oid : Nat)
    (s : State) (o : SwapOrder)
    (h1 : mapLookup s.orders oid = some o) (h2 : o.status = SwapStatus.Created)
    (h4 : o.order_type = OrderType.Market)
    (hanon : executor ≠ anonymous) (hdiff : o.owner ≠ executor)
    (hbal : o.to_amount ≤ balanceOf s executor) :
    (execute_swap_order executor oid s).1 = .ok () ∧
    balanceOf (execute_swap_order executor oid s).2 executor
      = balanceOf s executor - o.to_amount ∧
    balanceOf (execute_swap_order executor oid s).2 o.owner
      = balanceOf s o.owner + o.to_amount ∧
    mapLookup (execute_swap_order executor oid s).2.orders oid
      = some { o with status := .Executed } ∧
    (∀ e2 : Principal, e2 ≠ anonymous →
      (execute_swap_order e2 oid (execute_swap_order executor oid s).2).1
        = .err .InvalidOrderStatus) := by
  have helig : eligible o.order_type := Or.inl h4
  have hne : executor ≠ o.owner := fun hh => hdiff hh.symm
  by_cases ha : o.to_amount = 0
  · have htr : transfer_funds executor o.owner o.to_amount s.accounts
        = (.ok (), s.accounts) := by
      rw [ha]
      exact transfer_funds_zero executor o.owner s.accounts
    rw [execute_eligible_ok executor oid s o s.accounts hanon h1 h2 hdiff helig htr]
    refine ⟨rfl, by simp [balanceOf, ha], by simp [balanceOf, ha], ?_, ?_⟩
    · exact mapLookup_mapInsert_self _ _ _
    · intro e2 he2
      rw [execute_bad_status e2 oid _ { o with status := .Executed } he2
        (mapLookup_mapInsert_self _ _ _) (by simp)]
  · cases hfa : mapLookup s.accounts executor with
    | none =>
      exfalso
      simp only [balanceOf, hfa] at hbal
      simp at hbal
      omega
    | some fa =>
      have hfab : fa.balance = balanceOf s executor := by
        simp [balanceOf, hfa]
      have hge : o.to_amount ≤ fa.balance := by omega
      have htr := transfer_funds_rich executor o.owner o.to_amount s.accounts fa
        ha hne hfa hge
      have hbals := transfer_funds_rich_balances executor o.owner o.to_amount
        s.accounts fa ha hne hfa hge
      rw [htr] at hbals
      rw [execute_eligible_ok executor oid s o _ hanon h1 h2 hdiff helig htr]
      refine ⟨rfl, ?_, ?_, ?_, ?_⟩
      · simp only [balanceOf]
        rw [hbals.1, hfab]
        rfl
      · simp only [balanceOf]
        rw [hbals.2]
      · exact mapLookup_mapInsert_self _ _ _
      · intro e2 he2
        rw [execute_bad_status e2 oid _ { o with status := .Executed } he2
          (mapLookup_mapInsert_self _ _ _) (by simp)]

/-- The state for the C4 witness: owner 1 has balance 60 and a `Created`
market order with id 1 (`to_amount` 40); executor 2 has balance 50. -/
def c4state : State :=
  ⟨[(1, ⟨60⟩), (2, ⟨50⟩)], [(1, ⟨1, 1, "USD", "EUR", 40, 40, .Market, 0, .Created⟩)], 1⟩

/-- Witness for C4: executor 2 settles order 1, paying 40 to owner 1; a
retry by caller 3 fails with `InvalidOrderStatus`. -/
theorem execute_market_order_witness :
    (execute_swap_order 2 1 c4state).1 = .ok () ∧
    balanceOf (execute_swap_order 2 1 c4state).2 2 = balanceOf c4state 2 - 40 ∧
    balanceOf (execute_swap_order 2 1 c4state).2 1 = balanceOf c4state 1 + 40 ∧
    mapLookup (execute_swap_order 2 1 c4state).2.orders 1
      = some ⟨1, 1, "USD", "EUR", 40, 40, .Market, 0, .Executed⟩ ∧
    (execute_swap_order 3 1 (execute_swap_order 2 1 c4state).2).1
      = .err .InvalidOrderStatus := by
  have h := execute_market_order_spec 2 1 c4state
    ⟨1, 1, "USD", "EUR", 40, 40, .Market, 0, .Created⟩
    rfl rfl rfl (by decide) (by decide) (by decide)
  exact ⟨h.1, h.2.1, h.2.2.1, h.2.2.2.1, h.2.2.2.2 3 (by decide)⟩

/-- Claim C2, counterexample: for a caller with no account record,
`create_swap_order` with valid arguments but insufficient funds returns
`InsufficientFunds` yet does change the state: it inserts a zero-balance
account record for the caller (lib.rs lines 208-211), so "no other state
change" fails at the empty state. -/
theorem create_insufficient_state_change :
    (create_swap_order 1 0 ⟨"USD", "EUR", 5, 5, .Market⟩ State.empty).1
        = .ret (.err .InsufficientFunds) ∧
    (create_swap_order 1 0 ⟨"USD", "EUR", 5, 5, .Market⟩ State.empty).2
        ≠ State.empty := by
  decide

/-- Claim C2, amended: `create_swap_order` with valid arguments but
`from_amount` above the caller's balance returns `InsufficientFunds` and
leaves the caller's balance, the order store, and the order counter
unchanged; the only other possible state change is the insertion of a
zero-balance account record for the caller when the caller had none. -/
theorem create_insufficient_funds_spec (c : Principal) (now : Nat)
    (args : CreateSwapOrderArgs) (s : State)
    (h0 : args.from_amount ≠ 0) (h1 : args.to_amount ≠ 0)
    (h2 : is_valid_currency args.from_currency = true)
    (h3 : is_valid_currency args.to_currency = true)
    (h4 : has_invalid_price args.order_type = false)
    (h5 : balanceOf s c < args.from_amount) :
    (create_swap_order c now args s).1 = .ret (.err .InsufficientFunds) ∧
    balanceOf (create_swap_order c now args s).2 c = balanceOf s c ∧
    (∀ p : Principal, balanceOf (create_swap_order c now args s).2 p = balanceOf s p) ∧
    (create_swap_order c now args s).2.orders = s.orders ∧
    (create_swap_order c now args s).2.counter = s.counter ∧
    (create_swap_order c now args s).2.accounts = ensure_account s.accounts c := by
  rw [create_insufficient c now args s h0 h1 h2 h3 h4 h5]
  refine ⟨rfl, ?_, ?_, rfl, rfl, rfl⟩
  · exact balance_ensure_account s.accounts c c
  · intro p
    exact balance_ensure_account s.accounts c p

/-- Witness for C2 (amended) at the empty state. -/
theorem create_insufficient_funds_witness :
    (create_swap_order 1 0 ⟨"USD", "EUR", 5, 5, .Market⟩ State.empty).1
        = .ret (.err .InsufficientFunds) ∧
    balanceOf (create_swap_order 1 0 ⟨"USD", "EUR", 5, 5, .Market⟩ State.empty).2 1
        = balanceOf State.empty 1 ∧
    (create_swap_order 1 0 ⟨"USD", "EUR", 5, 5, .Market⟩ State.empty).2.orders
        = State.empty.orders ∧
    (create_swap_order 1 0 ⟨"USD", "EUR", 5, 5, .Market⟩ State.empty).2.counter
        = State.empty.counter := by
  have h := create_insufficient_funds_spec 1 0 ⟨"USD", "EUR", 5, 5, .Market⟩
    State.empty (by decide) (by decide) (by decide) (by decide) (by decide) (by decide)
  exact ⟨h.1, h.2.1, h.2.2.2.1, h.2.2.2.2.1⟩

/-- The currency test of `is_valid_currency`, spelled out: exactly three
characters, all uppercase ASCII letters. -/
theorem is_valid_currency_iff (cur : String) :
    is_valid_currency cur = true ↔
      (cur.length = 3 ∧ ∀ ch ∈ cur.toList, 65 ≤ ch.toNat ∧ ch.toNat ≤ 90) := by
  simp [is_valid_currency, List.all_eq_true]

/-- Claim C8: `deposit` fails with `InvalidAmount` exactly when the amount
is 0; otherwise it fails with `InvalidCurrency` exactly when the currency is
not three uppercase ASCII letters; otherwise it succeeds and raises the
caller's balance by exactly the amount, the account record existing
afterwards even if it was absent before. -/
theorem deposit_spec (c : Principal) (args : DepositArgs) (s : State) :
    ((deposit c args s).1 = .err .InvalidAmount ↔ args.amount = 0) ∧
    (args.amount ≠ 0 →
      ((deposit c args s).1 = .err .InvalidCurrency ↔
        ¬(args.currency.length = 3 ∧
          ∀ ch ∈ args.currency.toList, 65 ≤ ch.toNat ∧ ch.toNat ≤ 90))) ∧
    (args.amount ≠ 0 → is_valid_currency args.currency = true →
      (deposit c args s).1 = .ok () ∧
      mapLookup (deposit c args s).2.accounts c
        = some ⟨balanceOf s c + args.amount⟩ ∧
      balanceOf (deposit c args s).2 c = balanceOf s c + args.amount) := by
  refine ⟨?_, ?_, ?_⟩
  · constructor
    · intro h
      by_cases h0 : args.amount = 0
      · exact h0
      · exfalso
        cases h1 : is_valid_currency args.currency with
        | false => rw [deposit_bad_currency c args s h0 h1] at h; exact absurd h (by simp)
        | true => rw [deposit_ok c args s h0 h1] at h; exact absurd h (by simp)
    · intro h0
      rw [deposit_zero_amount c args s h0]
  · intro h0
    rw [← is_valid_currency_iff]
    constructor
    · intro h
      cases h1 : is_valid_currency args.currency with
      | false => simp [h1]
      | true =>
        rw [deposit_ok c args s h0 h1] at h
        exact absurd h (by simp)
    · intro h
      have h1 : is_valid_currency args.currency = false := by
        cases hv : is_valid_currency args.currency with
        | false => rfl
        | true => exact absurd hv h
      rw [deposit_bad_currency c args s h0 h1]
  · intro h0 h1
    rw [deposit_ok c args s h0 h1]
    refine ⟨rfl, ?_, ?_⟩
    · exact mapLookup_mapInsert_self _ _ _
    · simp only [balanceOf]
      rw [mapLookup_mapInsert_self]
      rfl

/-- Witness for C8: the spec's concrete currency examples plus a successful
deposit. -/
theorem deposit_spec_witness :
    (deposit 1 ⟨0, "USD"⟩ State.empty).1 = .err .InvalidAmount ∧
    (deposit 1 ⟨5, "usd"⟩ State.empty).1 = .err .InvalidCurrency ∧
    (deposit 1 ⟨5, "US"⟩ State.empty).1 = .err .InvalidCurrency ∧
    (deposit 1 ⟨5, "USDD"⟩ State.empty).1 = .err .InvalidCurrency ∧
    (deposit 1 ⟨5, "USD"⟩ State.empty).1 = .ok () ∧
    balanceOf (deposit 1 ⟨5, "USD"⟩ State.empty).2 1 = 5 := by
  refine ⟨(deposit_spec 1 ⟨0, "USD"⟩ State.empty).1.mpr rfl,
    ((deposit_spec 1 ⟨5, "usd"⟩ State.empty).2.1 (by decide)).mpr (by decide),
    ((deposit_spec 1 ⟨5, "US"⟩ State.empty).2.1 (by decide)).mpr (by decide),
    ((deposit_spec 1 ⟨5, "USDD"⟩ State.empty).2.1 (by decide)).mpr (by decide),
    ((deposit_spec 1 ⟨5, "USD"⟩ State.empty).2.2 (by decide) (by decide)).1,
    ?_⟩
  have h := ((deposit_spec 1 ⟨5, "USD"⟩ State.empty).2.2 (by decide) (by decide)).2.2
  simpa using h

/-- Claim C9, counterexample: a transfer that fails with
`InsufficientFunds` is not a complete no-op: the recipient's zero-balance
account record has already been inserted (lib.rs lines 305-308), so the
account map changes even though the transfer failed. -/
theorem transfer_funds_failure_state_change :
    (transfer_funds 1 2 10 [(1, ⟨5⟩)]).1 = .err .InsufficientFunds ∧
    (transfer_funds 1 2 10 [(1, ⟨5⟩)]).2 ≠ [(1, ⟨5⟩)] := by
  decide

/-- Claim C9, amended: `transfer_funds` is a no-op success when the amount
is 0 or sender equals recipient; otherwise it fails with `UserNotFound` when
the sender has no record (changing nothing), fails with `InsufficientFunds`
when the sender's balance is short — leaving every balance unchanged (no
partial debit without credit) though the recipient's zero-balance record may
have been created — and otherwise debits the sender and credits the
recipient by exactly the amount, creating the recipient's account if
absent. -/
theorem transfer_funds_spec (fromP toP : Principal) (amount : Nat)
    (acc : List (Principal × UserAccount)) :
    (amount = 0 → transfer_funds fromP toP amount acc = (.ok (), acc)) ∧
    (fromP = toP → transfer_funds fromP toP amount acc = (.ok (), acc)) ∧
    (amount ≠ 0 → fromP ≠ toP → mapLookup acc fromP = none →
      transfer_funds fromP toP amount acc = (.err .UserNotFound, acc)) ∧
    (∀ fa, amount ≠ 0 → fromP ≠ toP → mapLookup acc fromP = some fa →
      fa.balance < amount →
      (transfer_funds fromP toP amount acc).1 = .err .InsufficientFunds ∧
      (transfer_funds fromP toP amount acc).2 = ensure_account acc toP ∧
      (∀ p, ((mapLookup (transfer_funds fromP toP amount acc).2 p).getD ⟨0⟩).balance
          = ((mapLookup acc p).getD ⟨0⟩).balance)) ∧
    (∀ fa, amount ≠ 0 → fromP ≠ toP → mapLookup acc fromP = some fa →
      amount ≤ fa.balance →
      (transfer_funds fromP toP amount acc).1 = .ok () ∧
      mapLookup (transfer_funds fromP toP amount acc).2 toP ≠ none ∧
      ((mapLookup (transfer_funds fromP toP amount acc).2 fromP).getD ⟨0⟩).balance
          = fa.balance - amount ∧
      ((mapLookup (transfer_funds fromP toP amount acc).2 toP).getD ⟨0⟩).balance
          = ((mapLookup acc toP).getD ⟨0⟩).balance + amount) := by
  refine ⟨?_, ?_, ?_, ?_, ?_⟩
  · intro h
    rw [h]
    exact transfer_funds_zero fromP toP acc
  · intro h
    rw [h]
    exact transfer_funds_self toP amount acc
  · intro ha hne hm
    exact transfer_funds_missing fromP toP amount acc ha hne hm
  · intro fa ha hne hm hlt
    have hp := transfer_funds_poor fromP toP amount acc fa ha hne hm hlt
    refine ⟨by rw [hp], by rw [hp], ?_⟩
    intro p
    exact transfer_funds_err_balances fromP toP amount acc .InsufficientFunds
      (by rw [hp]) p
  · intro fa ha hne hm hge
    have hr := transfer_funds_rich fromP toP amount acc fa ha hne hm hge
    have hb := transfer_funds_rich_balances fromP toP amount acc fa ha hne hm hge
    refine ⟨by rw [hr], ?_, hb.1, hb.2⟩
    rw [hr]
    dsimp only
    rw [mapLookup_mapInsert_self]
    simp

/-- Witness for C9 (amended): each branch observed at a concrete input. -/
theorem transfer_funds_spec_witness :
    transfer_funds 1 2 0 [(1, ⟨5⟩)] = (.ok (), [(1, ⟨5⟩)]) ∧
    transfer_funds 1 1 3 [(1, ⟨5⟩)] = (.ok (), [(1, ⟨5⟩)]) ∧
    transfer_funds 3 2 3 [(1, ⟨5⟩)] = (.err .UserNotFound, [(1, ⟨5⟩)]) ∧
    (transfer_funds 1 2 10 [(1, ⟨5⟩)]).1 = .err .InsufficientFunds ∧
    ((mapLookup (transfer_funds 1 2 10 [(1, ⟨5⟩)]).2 1).getD ⟨0⟩).balance = 5 ∧
    ((mapLookup (transfer_funds 1 2 10 [(1, ⟨5⟩)]).2 2).getD ⟨0⟩).balance = 0 ∧
    (transfer_funds 1 2 3 [(1, ⟨5⟩)]).1 = .ok () ∧
    ((mapLookup (transfer_funds 1 2 3 [(1, ⟨5⟩)]).2 1).getD ⟨0⟩).balance = 2 ∧
    ((mapLookup (transfer_funds 1 2 3 [(1, ⟨5⟩)]).2 2).getD ⟨0⟩).balance = 3 := by
  have hpoor := (transfer_funds_spec 1 2 10 [(1, ⟨5⟩)]).2.2.2.1 ⟨5⟩
    (by decide) (by decide) (by decide) (by decide)
  have hrich := (transfer_funds_spec 1 2 3 [(1, ⟨5⟩)]).2.2.2.2 ⟨5⟩
    (by decide) (by decide) (by decide) (by decide)
  refine ⟨(transfer_funds_spec 1 2 0 [(1, ⟨5⟩)]).1 rfl,
    (transfer_funds_spec 1 1 3 [(1, ⟨5⟩)]).2.1 rfl,
    (transfer_funds_spec 3 2 3 [(1, ⟨5⟩)]).2.2.1 (by decide) (by decide) (by decide),
    hpoor.1, ?_, ?_, hrich.1, ?_, ?_⟩
  · have h := hpoor.2.2 1
    simpa using h
  · have h := hpoor.2.2 2
    simpa using h
  · have h := hrich.2.2.1
    simpa using h
  · have h := hrich.2.2.2
    simpa using h

/-- True exactly on the result `Err(AnonymousNotAllowed)`. -/
def is_anonymous_rejection {α : Type} : Res α → Bool
  | .err .AnonymousNotAllowed => true
  | _ => false

/-- True exactly when an update call returned `Err(AnonymousNotAllowed)`;
a trap is not such a return. -/
def outcome_rejects_anonymous {α : Type} : Outcome α → Bool
  | .ret r => is_anonymous_rejection r
  | .trap => false

/-- Claim C10: only `execute_swap_order` rejects the anonymous identity:
`deposit`, `create_swap_order` and `cancel_swap_order` never return
`AnonymousNotAllowed` (and `get_user_balance` / `get_swap_order` have no
error channel at all), while `execute_swap_order` always rejects the
anonymous caller; in particular the anonymous identity can deposit. -/
theorem anonymous_only_blocked_in_execute :
    (∀ (c : Principal) (args : DepositArgs) (s : State),
      is_anonymous_rejection (deposit c args s).1 = false) ∧
    (∀ (c : Principal) (now : Nat) (args : CreateSwapOrderArgs) (s : State),
      outcome_rejects_anonymous (create_swap_order c now args s).1 = false) ∧
    (∀ (c : Principal) (oid : Nat) (s : State),
      is_anonymous_rejection (cancel_swap_order c oid s).1 = false) ∧
    (∀ (oid : Nat) (s : State),
      (execute_swap_order anonymous oid s).1 = .err .AnonymousNotAllowed) ∧
    (∀ s : State, (deposit anonymous ⟨1, "USD"⟩ s).1 = .ok ()) := by
  refine ⟨?_, ?_, ?_, ?_, ?_⟩
  · intro c args s
    unfold deposit
    split
    · rfl
    · split
      · rfl
      · rfl
  · intro c now args s
    unfold create_swap_order
    split
    · rfl
    · split
      · rfl
      · split
        · rfl
        · dsimp only
          split
          · rfl
          · rfl
  · intro c oid s
    unfold cancel_swap_order
    split
    · rfl
    · split
      · rfl
      · split
        · rfl
        · rfl
  · intro oid s
    rw [execute_anonymous_guard anonymous oid s rfl]
  · intro s
    rw [deposit_ok anonymous ⟨1, "USD"⟩ s (by decide) (by decide)]

/-- True exactly when the call returned `Ok`. -/
def is_ok_outcome {α : Type} : Outcome α → Bool
  | .ret (.ok _) => true
  | _ => false

/-- Claim C7 (code bug): the id-allocation code the claim cites (lib.rs
lines 222-228) holds the shared `RefCell` guard `binding` across
`counter.borrow_mut()`, which panics with a `BorrowMutError` on every
execution, so a creation that passes validation and the escrow debit traps
and rolls back instead of returning a new id: `create_swap_order` never
returns `Ok` and never issues an order id, against the claim's (and the
spec's) description of `next_id()` issuing strictly increasing ids to
successful creations.  The theorem evaluates the model at the failing
input — a fully valid creation after a deposit of 100 — and records the
two facts that do hold: no call of `create_swap_order` ever returns `Ok`,
and none ever changes the order counter. -/
theorem create_id_allocation_traps :
    create_swap_order 1 0 ⟨"USD", "EUR", 40, 40, .Market⟩
        (run State.empty [Op.depositOp 1 ⟨100, "USD"⟩])
      = (.trap, run State.empty [Op.depositOp 1 ⟨100, "USD"⟩]) ∧
    (∀ (c : Principal) (now : Nat) (args : CreateSwapOrderArgs) (s : State),
      is_ok_outcome (create_swap_order c now args s).1 = false) ∧
    (∀ (c : Principal) (now : Nat) (args : CreateSwapOrderArgs) (s : State),
      (create_swap_order c now args s).2.counter = s.counter) := by
  refine ⟨by decide, ?_, ?_⟩
  · intro c now args s
    unfold create_swap_order
    split
    · rfl
    · split
      · rfl
      · split
        · rfl
        · dsimp only
          split
          · rfl
          · rfl
  · intro c now args s
    exact (create_orders_effect c now args s).2

end CurrencySwap
